import Mathlib

/-!
# Verification of the color-range-selector threshold logic

Shallow embedding of the threshold derivation and synchronization algorithm of
`src/components/src/side-panel/layer-panel/color-range-selector.tsx`:

* `_fromColorMap` — edit-mode threshold recovery from a serialized color map;
* `_init` — create-mode threshold initialization from a numeric domain;
* `filteredColorRange` — the palette catalog filter;
* `_setColorThresholds` — the threshold mutator and color-map rebuild.

JavaScript runtime values that flow through this code (numbers, `NaN`,
strings, `null`, `undefined`) are modelled by the inductive `JVal`; machine
floats are modelled by exact rationals, which agrees with the JavaScript
semantics on every decimal value that is exactly representable as a double
(all values exercised by the claims below are).  A thrown `TypeError` is
modelled by `Except.error`.
-/

deriving instance DecidableEq for Except

namespace ColorRangeSelector

/-- JavaScript values reaching the threshold logic.  Numbers are modelled as
exact rationals (`NaN` is a separate constructor; the code under scrutiny
never produces infinities on the inputs the claims cover). -/
inductive JVal where
  | num (q : ℚ)
  | str (s : String)
  | nan
  | null
  | undefined
deriving DecidableEq

/-- An entry of `colorDomain : string[] | number[]`. -/
inductive DVal where
  | str (s : String)
  | num (q : ℚ)
deriving DecidableEq

/-- Exponent of `p` in `n` (largest `k` with `p ^ k ∣ n`), with structural
fuel so that it reduces inside the kernel.  `n` itself is always enough
fuel since every recursive step divides `n` by `p ≥ 2`. -/
def countFactorAux (p : Nat) : Nat → Nat → Nat
  | 0, _ => 0
  | fuel + 1, n =>
    if 1 < p ∧ 0 < n ∧ n % p = 0 then countFactorAux p fuel (n / p) + 1 else 0

def countFactor (p n : Nat) : Nat := countFactorAux p n n

/-- Number of digits after the decimal point of the (shortest) decimal
representation of `q`, valid whenever `q` has one (denominator of the form
`2^a * 5^b`, which covers every machine float). -/
def fracDigits (q : ℚ) : Nat := max (countFactor 2 q.den) (countFactor 5 q.den)

/-- Left-pad a digit string with zeros up to width `d`. -/
def padZeros (s : String) (d : Nat) : String :=
  String.mk (List.replicate (d - s.length) '0') ++ s

/-- Decimal rendering of a nonnegative rational, as JavaScript number
stringification produces on exactly-representable decimals
(`(10.25).toString() = "10.25"`, `(2).toString() = "2"`). -/
def ratToStringNonneg (q : ℚ) : String :=
  if q.den = 1 then toString q.num
  else
    let d := fracDigits q
    let fracNat := ((q - (Rat.floor q : ℚ)) * (10 : ℚ) ^ d).num.toNat
    toString (Rat.floor q) ++ "." ++ padZeros (toString fracNat) d

/-- Decimal rendering of a rational (JavaScript `Number.prototype.toString`). -/
def ratToString (q : ℚ) : String :=
  if q < 0 then "-" ++ ratToStringNonneg (-q) else ratToStringNonneg q

/-- String interpolation of a `JVal`, as a JS template literal renders it. -/
def jvalToString : JVal → String
  | .num q => ratToString q
  | .str s => s
  | .nan => "NaN"
  | .null => "null"
  | .undefined => "undefined"

/-- String interpolation of a domain entry. -/
def dvalToString : DVal → String
  | .str s => s
  | .num q => ratToString q

/-- String interpolation of a possibly-missing domain entry
(out-of-bounds JS indexing yields `undefined`). -/
def optDValToString : Option DVal → String
  | some v => dvalToString v
  | none => "undefined"

/-- Value of a list of decimal digit characters. -/
def digitsToNat (cs : List Char) : Nat :=
  cs.foldl (fun a c => a * 10 + (c.toNat - 48)) 0

/-- Core of `parseInt`: take the longest leading digit run; no digits means
`NaN`. -/
def parseIntCore (cs : List Char) (neg : Bool) : JVal :=
  let ds := cs.takeWhile Char.isDigit
  if ds.isEmpty then JVal.nan
  else JVal.num (if neg then -(digitsToNat ds : ℚ) else (digitsToNat ds : ℚ))

/-- JavaScript `parseInt` on a string (radix-10 form: optional sign, longest
leading digit run, everything after it — e.g. a fractional part — ignored;
no digits at all gives `NaN`). -/
def parseIntJS (s : String) : JVal :=
  match s.toList.dropWhile (fun c => c = ' ') with
  | '-' :: rest => parseIntCore rest true
  | '+' :: rest => parseIntCore rest false
  | cs => parseIntCore cs false

/-- JS `+` on the numbers reaching `_init` (`NaN` absorbs). -/
def jadd : JVal → JVal → JVal
  | .num a, .num b => .num (a + b)
  | _, _ => .nan

/-- JS `-` on the numbers reaching `_init` (`NaN` absorbs). -/
def jsub : JVal → JVal → JVal
  | .num a, .num b => .num (a - b)
  | _, _ => .nan

/-- JS `*` on the numbers reaching `_init` (`NaN` absorbs). -/
def jmul : JVal → JVal → JVal
  | .num a, .num b => .num (a * b)
  | _, _ => .nan

/-- JS `/` by a step count (the claims only exercise `steps ≥ 1`, so the
division-by-zero branch is never reached by them). -/
def jdivNat (a : JVal) (n : Nat) : JVal :=
  match a with
  | .num q => if n = 0 then .nan else .num (q / (n : ℚ))
  | _ => .nan

/-- Strip `sep` from the front of `cs`, if it is there. -/
def chopSep : List Char → List Char → Option (List Char)
  | [], cs => some cs
  | _ :: _, [] => none
  | p :: ps, c :: rest => if p = c then chopSep ps rest else none

/-- Splitter behind JavaScript `String.prototype.split(sep)` for a non-empty
separator, with structural fuel (each step consumes at least one character,
so `cs.length + 1` is always enough). -/
def splitSepAux (sep : List Char) : Nat → List Char → List Char → List (List Char)
  | 0, acc, _ => [acc.reverse]
  | fuel + 1, acc, cs =>
    match cs with
    | [] => [acc.reverse]
    | c :: rest =>
      match chopSep sep cs with
      | some rest2 => acc.reverse :: splitSepAux sep fuel [] rest2
      | none => splitSepAux sep fuel (c :: acc) rest

/-- JavaScript `s.split(sep)` for a non-empty separator
(`"".split(sep) = [""]`, `"2 to 4".split(" to ") = ["2", "4"]`). -/
def splitJS (s sep : String) : List String :=
  (splitSepAux sep.toList (s.toList.length + 1) [] s.toList).map fun cs => String.mk cs

/-- `getEditableThreshold` from `_fromColorMap`: the source checks
`k && k.length > 0 && typeof k[0] === 'string'` on the color-map entry `k`;
an entry here is always a pair (truthy, length 2), so the condition reduces
to the label `k[0]` being a string — note, any string, empty included.
`split(' to ').pop()` takes the last split token (`split` of a non-empty
string by a non-empty separator never yields an empty list, so the `pop`
default is irrelevant). -/
def getEditableThreshold {α : Type} (k : JVal × α) : Option String :=
  match k.1 with
  | .str s => some ((splitJS s " to ").getLastD "")
  | _ => none

/-- `_fromColorMap`: map each entry through `getEditableThreshold`, then
`pop()` the last element (the maxima, not editable). -/
def _fromColorMap {α : Type} (colorMap : List (JVal × α)) : List (Option String) :=
  (colorMap.map getEditableThreshold).dropLast

/-- `getDecimalPlaces` on a rational number value:
`Number.isInteger(num) ? 0 : num.toString().split('.')[1].length`. -/
def decPlacesQ (q : ℚ) : Nat :=
  if q.den = 1 then 0 else fracDigits q

/-- `getDecimalPlaces` on a JS value.  On a number it returns the digit
count; on `NaN` (and on `undefined`, for a too-short domain)
`num.toString()` has no `'.'`, so `split('.')[1]` is `undefined` and reading
its `.length` throws a `TypeError` — modelled by `none`. -/
def getDecimalPlaces : JVal → Option Nat
  | .num q => some (decPlacesQ q)
  | _ => none

/-- Round to the nearest integer with ties away from zero, as `toFixed`
does per ECMA-262: the sign is stripped first ("If x < 0, set s to the
string '-' and x to -x"), and only then is the nearest `n` picked with
"if there are two such n, pick the larger n" — so `(2.5).toFixed() = "3"`
and `(-2.5).toFixed() = "-3"`.  Stated computably via `Rat.floor`; on each
sign it agrees with Mathlib's `round` of the absolute value (see
`jsRound_eq`). -/
def jsRound (q : ℚ) : ℤ :=
  if q < 0 then -(Rat.floor (-q + 1 / 2)) else Rat.floor (q + 1 / 2)

/-- `roundDown` from `_init` (a misnomer in the source: both branches round
to nearest): `decimals ? parseFloat(num.toFixed(decimals)) :
parseInt(num.toFixed())`.  `toFixed` rounds to the nearest multiple of
`10^-decimals`, ties toward the larger value.
On `NaN`, `toFixed` yields `"NaN"` and `parseInt`/`parseFloat` give `NaN`. -/
def roundDown (decimals : Nat) : JVal → JVal
  | .num q =>
    if decimals ≠ 0 then
      .num ((jsRound (q * (10 : ℚ) ^ decimals) : ℚ) / (10 : ℚ) ^ decimals)
    else .num (jsRound q : ℚ)
  | _ => .nan

/-- `Math.max(getDecimalPlaces(min), getDecimalPlaces(max))`, with the
`TypeError` of either call propagated. -/
def initDecimals (mn mx : JVal) : Option Nat :=
  match getDecimalPlaces mn, getDecimalPlaces mx with
  | some a, some b => some (max a b)
  | _, _ => none

/-- `increment = roundDown((max - min) / length)` from `_init`. -/
def initIncrement (mn mx : JVal) (decimals steps : Nat) : JVal :=
  roundDown decimals (jdivNat (jsub mx mn) steps)

/-- The numeric core of `_init` once `min` and `max` are coerced. -/
def initFromNums (mn mx : JVal) (steps : Nat) : Except String (List JVal) :=
  match initDecimals mn mx with
  | none => .error "TypeError: cannot read length of undefined"
  | some decimals =>
    let increment := initIncrement mn mx decimals steps
    .ok ((List.range steps).map fun i =>
      if i = steps - 1 then mx
      else roundDown decimals (jadd mn (jmul increment (.num ((i : ℚ) + 1)))))

/-- `typeof colorDomain[i] === "string" ? parseInt(colorDomain[i]) :
colorDomain[i]`; a missing entry stays `undefined`. -/
def coerceDom : Option DVal → JVal
  | some (.str s) => parseIntJS s
  | some (.num q) => .num q
  | none => .undefined

/-- `_init`: create-mode threshold initialization.  Absent domain gives `[]`;
otherwise coerce `colorDomain[0]`/`colorDomain[1]`, infer the precision,
and evenly subdivide (last element forced to `max`). -/
def _init (colorDomain : Option (List DVal)) (steps : Nat) :
    Except String (List JVal) :=
  match colorDomain with
  | none => .ok []
  | some dom => initFromNums (coerceDom dom[0]?) (coerceDom dom[1]?) steps

/-- A catalog entry (`ColorRange`): the fields the filter reads.  The source
field `type` is called `rtype` here; it may be absent (`undefined`), hence
`Option`. -/
structure ColorRangeRec where
  name : String
  rtype : Option String
  colors : List String
  reversed : Bool
deriving DecidableEq

/-- `filteredColorRange`: keep the catalog entries with
`type === 'all' || type === colorRange.type` and
`Number(steps) === colorRange.colors.length`. -/
def filteredColorRange (catalog : List ColorRangeRec) (rtype : String)
    (steps : Nat) : List ColorRangeRec :=
  catalog.filter fun colorRange =>
    (rtype == "all" || some rtype == colorRange.rtype) &&
      (steps == colorRange.colors.length)

/-- JS array read `l[i]` (out of bounds gives `undefined`). -/
def jsIndex (l : List JVal) (i : Nat) : JVal := l[i]?.getD .undefined

/-- JS array write `l[i] = v` on a copy: in-bounds writes replace, an
out-of-bounds write extends the array, the gap filled with holes that read
back as `undefined`. -/
def jsArraySet (l : List JVal) (i : Nat) (v : JVal) : List JVal :=
  if i < l.length then l.set i v
  else l ++ List.replicate (i - l.length) JVal.undefined ++ [v]

/-- Label of bucket `i` as `_setColorThresholds` builds it:
`minOfRange = isFirst(i) ? minima : colorThresholds[i-1]`,
`maxOfRange = isLast(i, colors) ? maxima : colorThresholds[i]`,
label = `` `${minOfRange} to ${maxOfRange}` ``. -/
def bucketLabel (ct : List JVal) (n : Nat) (minima maxima : String) (i : Nat) :
    String :=
  (if i = 0 then minima else jvalToString (jsIndex ct (i - 1))) ++ " to " ++
    (if i = n - 1 then maxima else jvalToString (jsIndex ct i))

/-- The color-map rebuild of `_setColorThresholds`:
`colors.map((c, i, self) => [label, c])`. -/
def buildColorMap {α : Type} (ct : List JVal) (colors : List α)
    (minima maxima : String) : List (String × α) :=
  colors.mapIdx fun i c => (bucketLabel ct colors.length minima maxima i, c)

/-- The state `_setColorThresholds` reads and writes: the component-local
threshold array, and the custom palette's colors and color-map. -/
structure ThState (α : Type) where
  colorThresholds : List JVal
  colors : List α
  colorMap : Option (List (String × α))

/-- `_setColorThresholds(index, {target: {value}})`: with no domain, do
nothing; otherwise copy the thresholds, overwrite position `index` with the
raw value, and rebuild the color-map from the updated thresholds,
`colorDomain[0]` and `colorDomain[colorDomain.length - 1]`. -/
def _setColorThresholds {α : Type} (colorDomain : Option (List DVal))
    (index : Nat) (value : JVal) (st : ThState α) : ThState α :=
  match colorDomain with
  | none => st
  | some dom =>
    let colorThresholds := jsArraySet st.colorThresholds index value
    let minima := optDValToString dom[0]?
    let maxima := optDValToString dom[(dom.length - 1)]?
    { colorThresholds := colorThresholds
      colors := st.colors
      colorMap := some (buildColorMap colorThresholds st.colors minima maxima) }

/-! ### Helper lemmas -/

theorem ratfloor_eq_floor (q : ℚ) : Rat.floor q = ⌊q⌋ :=
  (Rat.floor_def' q).trans Rat.floor_def.symm

/-- `jsRound` is round-to-nearest with ties away from zero: on a
nonnegative argument it is Mathlib's `round` (half-up), and on a negative
argument it is the negated `round` of the absolute value. -/
theorem jsRound_eq (q : ℚ) :
    jsRound q = if q < 0 then -(round (-q)) else round q := by
  unfold jsRound
  split <;> rw [ratfloor_eq_floor, round_eq]

theorem jsArraySet_getElem?_self (l : List JVal) (i : Nat) (v : JVal) :
    (jsArraySet l i v)[i]? = some v := by
  unfold jsArraySet
  split
  · exact List.getElem?_set_self (by assumption)
  · rename_i h
    have hlen : (l ++ List.replicate (i - l.length) JVal.undefined).length = i := by
      simp only [List.length_append, List.length_replicate]
      omega
    rw [List.getElem?_append_right hlen.le]
    simp [hlen]

theorem jsArraySet_getElem?_of_ne (l : List JVal) {i j : Nat} (v : JVal)
    (hne : j ≠ i) (hj : j < l.length) : (jsArraySet l i v)[j]? = l[j]? := by
  unfold jsArraySet
  split
  · exact List.getElem?_set_ne (fun e => hne e.symm)
  · rw [List.getElem?_append_left (by simp; omega), List.getElem?_append_left hj]

theorem buildColorMap_getElem? {α : Type} (ct : List JVal) (colors : List α)
    (mn mx : String) (i : Nat) :
    (buildColorMap ct colors mn mx)[i]? =
      colors[i]?.map fun c => (bucketLabel ct colors.length mn mx i, c) := by
  simp [buildColorMap]

theorem buildColorMap_length {α : Type} (ct : List JVal) (colors : List α)
    (mn mx : String) : (buildColorMap ct colors mn mx).length = colors.length := by
  simp [buildColorMap]

theorem setColorThresholds_some {α : Type} (dom : List DVal) (index : Nat)
    (value : JVal) (st : ThState α) :
    _setColorThresholds (some dom) index value st =
      { colorThresholds := jsArraySet st.colorThresholds index value
        colors := st.colors
        colorMap := some (buildColorMap (jsArraySet st.colorThresholds index value)
          st.colors (optDValToString dom[0]?)
          (optDValToString dom[(dom.length - 1)]?)) } := rfl

theorem initDecimals_num (a b : ℚ) :
    initDecimals (JVal.num a) (JVal.num b) = some (max (decPlacesQ a) (decPlacesQ b)) := rfl

theorem initDecimals_none_left (mx : JVal) (h : getDecimalPlaces mx = none) :
    ∀ mn, initDecimals mn mx = none := by
  intro mn
  unfold initDecimals
  cases hmn : getDecimalPlaces mn <;> rw [h]

theorem parseIntCore_den (cs : List Char) (neg : Bool) (n : ℚ)
    (h : parseIntCore cs neg = JVal.num n) : n.den = 1 := by
  simp only [parseIntCore] at h
  by_cases hds : (cs.takeWhile Char.isDigit).isEmpty = true
  · rw [if_pos hds] at h
    exact absurd h (by simp)
  · rw [if_neg hds] at h
    injection h with h2
    rw [← h2]
    cases neg <;> simp

theorem parseIntJS_den (s : String) (n : ℚ) (h : parseIntJS s = JVal.num n) :
    n.den = 1 := by
  unfold parseIntJS at h
  split at h <;> exact parseIntCore_den _ _ _ h

/-! ### Claim theorems -/

/-- C1, counterexample: the claim says `_init` completes without throwing on
a domain whose min is a non-numeric string, with `NaN` propagating into the
values.  At the concrete input `["abc", "10"]` it instead throws
(`getDecimalPlaces(NaN)` evaluates `"NaN".split('.')[1].length`, a property
read on `undefined`). -/
theorem init_nonNumeric_cex :
    _init (some [DVal.str "abc", DVal.str "10"]) 5 =
      Except.error "TypeError: cannot read length of undefined" := by
  with_unfolding_all decide

/-- C1, amended: for every domain whose min or max entry is a non-numeric
string (one `parseInt` turns into `NaN`), the create-mode initializer
`_init` throws a `TypeError` instead of returning a threshold sequence —
the failure is a thrown error, not silent `NaN` propagation into labels. -/
theorem init_nonNumeric_throws (dom : List DVal) (steps : Nat)
    (h : (∃ s, dom[0]? = some (DVal.str s) ∧ parseIntJS s = JVal.nan) ∨
      (∃ s, dom[1]? = some (DVal.str s) ∧ parseIntJS s = JVal.nan)) :
    _init (some dom) steps =
      Except.error "TypeError: cannot read length of undefined" := by
  have hinit : _init (some dom) steps =
      initFromNums (coerceDom dom[0]?) (coerceDom dom[1]?) steps := rfl
  rw [hinit]
  rcases h with ⟨s, h0, hp⟩ | ⟨s, h1, hp⟩
  · have hc : coerceDom dom[0]? = JVal.nan := by rw [h0]; exact hp
    rw [hc]
    unfold initFromNums
    have hnone : initDecimals JVal.nan (coerceDom dom[1]?) = none := by
      unfold initDecimals
      cases getDecimalPlaces (coerceDom dom[1]?) <;> rfl
    rw [hnone]
  · have hc : coerceDom dom[1]? = JVal.nan := by rw [h1]; exact hp
    rw [hc]
    unfold initFromNums
    rw [initDecimals_none_left JVal.nan rfl]

theorem init_nonNumeric_throws_witness :
    _init (some [DVal.str "abc", DVal.str "10"]) 7 =
      Except.error "TypeError: cannot read length of undefined" :=
  init_nonNumeric_throws [DVal.str "abc", DVal.str "10"] 7
    (Or.inl ⟨"abc", rfl, by decide⟩)

/-- C2, counterexample: the claim says that at inferred precision 0 the
increment is `(max - min) / steps` truncated to integer.  For the domain
`[0, 8]` with 5 steps the quotient is `1.6`; truncation gives `1`, but the
code (`parseInt(num.toFixed())`, where `toFixed` rounds to nearest) yields
`2`.  Likewise for the domain `[5, 0]` with 2 steps the quotient is `-2.5`;
truncation toward zero gives `-2`, but `toFixed` strips the sign before
resolving the tie, so the code yields `-3`. -/
theorem init_increment_cex :
    initDecimals (JVal.num 0) (JVal.num 8) = some 0 ∧
    initIncrement (JVal.num 0) (JVal.num 8) 0 5 = JVal.num 2 ∧
    (⌊((8 : ℚ) - 0) / 5⌋ : ℤ) = 1 ∧ (2 : ℚ) ≠ ((1 : ℤ) : ℚ) ∧
    initIncrement (JVal.num 5) (JVal.num 0) 0 2 = JVal.num (-3) ∧
    (-3 : ℚ) ≠ (-2 : ℚ) := by
  refine ⟨by with_unfolding_all decide, by with_unfolding_all decide, ?_,
    by norm_num, by with_unfolding_all decide, by norm_num⟩
  rw [← ratfloor_eq_floor]
  with_unfolding_all decide

/-- C2, amended: in create-mode initialization with inferred decimal
precision `d`, the increment is `(max - min) / steps` rounded to the
*nearest* integer when `d = 0` — ties away from zero, `toFixed` semantics,
not truncated — and rounded to `d` decimal places by the same rule when
`d > 0`.  (Ties away from zero is expressed as Mathlib's half-up `round`
applied to the absolute value, the sign restored afterwards.) -/
theorem init_increment_rounds (a b : ℚ) (steps d : Nat) (hs : 0 < steps)
    (_hd : initDecimals (JVal.num a) (JVal.num b) = some d) :
    initIncrement (JVal.num a) (JVal.num b) d steps =
      JVal.num (if d = 0 then
          (if (b - a) / (steps : ℚ) < 0 then
            -((round (-((b - a) / (steps : ℚ))) : ℤ) : ℚ)
          else ((round ((b - a) / (steps : ℚ)) : ℤ) : ℚ))
        else
          (if ((b - a) / (steps : ℚ)) * (10 : ℚ) ^ d < 0 then
            -((round (-(((b - a) / (steps : ℚ)) * (10 : ℚ) ^ d)) : ℤ) : ℚ)
          else ((round (((b - a) / (steps : ℚ)) * (10 : ℚ) ^ d) : ℤ) : ℚ)) /
            (10 : ℚ) ^ d) := by
  simp only [initIncrement, jsub, jdivNat, roundDown, if_neg hs.ne', jsRound_eq]
  by_cases h0 : d = 0 <;> simp [h0, apply_ite (fun z : ℤ => (z : ℚ))]

theorem init_increment_rounds_witness :
    0 < 4 ∧
    initDecimals (JVal.num 0) (JVal.num (41 / 4)) = some 2 ∧
    initIncrement (JVal.num 0) (JVal.num (41 / 4)) 2 4 = JVal.num (64 / 25) := by
  refine ⟨by decide, by with_unfolding_all decide, ?_⟩
  rw [init_increment_rounds 0 (41 / 4) 4 2 (by decide) (by with_unfolding_all decide),
    if_neg (by decide : ¬(2 : Nat) = 0),
    if_neg (show ¬(((41 : ℚ) / 4 - 0) / ((4 : Nat) : ℚ)) * (10 : ℚ) ^ (2 : Nat) < 0
      by norm_num),
    round_eq, ← ratfloor_eq_floor]
  with_unfolding_all decide

/-- C6: with an undefined domain, `_setColorThresholds` is a total no-op:
for every index, raw value and state, it returns the state unchanged (the
threshold array and the color-map included), and — being a total function —
raises no error. -/
theorem setThreshold_no_domain_noop {α : Type} (index : Nat) (value : JVal)
    (st : ThState α) : _setColorThresholds none index value st = st := rfl

/-- C8: for every catalog, type and step count, the palette filter returns
exactly the catalog entries with a matching type (or type `"all"`) and the
matching color count, as a sublist of the catalog (hence in the catalog's
original order). -/
theorem filteredColorRange_spec (catalog : List ColorRangeRec) (t : String)
    (steps : Nat) :
    (∀ c, c ∈ filteredColorRange catalog t steps ↔
      c ∈ catalog ∧ ((t = "all" ∨ c.rtype = some t) ∧ c.colors.length = steps)) ∧
    (filteredColorRange catalog t steps).Sublist catalog := by
  refine ⟨fun c => ?_, List.filter_sublist _⟩
  simp only [filteredColorRange, List.mem_filter, Bool.and_eq_true, Bool.or_eq_true,
    beq_iff_eq]
  constructor
  · rintro ⟨hm, h1 | h1, h2⟩
    · exact ⟨hm, Or.inl h1, h2.symm⟩
    · exact ⟨hm, Or.inr h1.symm, h2.symm⟩
  · rintro ⟨hm, h1 | h1, h2⟩
    · exact ⟨hm, Or.inl h1, h2.symm⟩
    · exact ⟨hm, Or.inr h1.symm, h2.symm⟩

/-- C4: with thresholds `[2,4,6,8]`, domain `[0,10]` and 5 colors, the
`setThreshold`-driven rebuild (here: an edit of position 1 back to `4`)
produces the color-map `[["0 to 2",c0],…,["8 to 10",c4]]`, and feeding that
very map back into `_fromColorMap` yields the string tokens
`["2","4","6","8"]` (the last entry dropped). -/
theorem colorMap_roundTrip {α : Type} (c0 c1 c2 c3 c4 : α) :
    (_setColorThresholds (some [DVal.num 0, DVal.num 10]) 1 (JVal.num 4)
        (ThState.mk [JVal.num 2, JVal.num 4, JVal.num 6, JVal.num 8]
          [c0, c1, c2, c3, c4] none)).colorMap =
      some [("0 to 2", c0), ("2 to 4", c1), ("4 to 6", c2), ("6 to 8", c3),
        ("8 to 10", c4)] ∧
    _fromColorMap
      (((_setColorThresholds (some [DVal.num 0, DVal.num 10]) 1 (JVal.num 4)
          (ThState.mk [JVal.num 2, JVal.num 4, JVal.num 6, JVal.num 8]
            [c0, c1, c2, c3, c4] none)).colorMap.getD []).map
        fun p => (JVal.str p.1, p.2)) =
      [some "2", some "4", some "6", some "8"] := by
  constructor <;> with_unfolding_all rfl

/-- C3: for every numeric domain `[min, max]` and `steps ≥ 1`, `_init`
returns exactly `steps` values, the value at index `i` being `max` when
`i = steps - 1` and otherwise `min + increment * (i + 1)` rounded at the
inferred precision; in particular `_init([0,10],5) = [2,4,6,8,10]`, and for
`_init([0,10.25],4)` every value has at most 2 decimal places with the last
exactly `10.25`. -/
theorem init_values (a b : ℚ) (steps : Nat) (_hs : 0 < steps) :
    (∃ l, _init (some [DVal.num a, DVal.num b]) steps = Except.ok l ∧
      l.length = steps ∧
      ∀ i, i < steps → l[i]? = some (if i = steps - 1 then JVal.num b
        else roundDown (max (decPlacesQ a) (decPlacesQ b))
          (jadd (JVal.num a)
            (jmul (initIncrement (JVal.num a) (JVal.num b)
                (max (decPlacesQ a) (decPlacesQ b)) steps)
              (JVal.num ((i : ℚ) + 1)))))) ∧
    _init (some [DVal.num 0, DVal.num 10]) 5 =
      Except.ok [JVal.num 2, JVal.num 4, JVal.num 6, JVal.num 8, JVal.num 10] ∧
    (∃ l4, _init (some [DVal.num 0, DVal.num (41 / 4)]) 4 = Except.ok l4 ∧
      (∀ v ∈ l4, ∃ q : ℚ, v = JVal.num q ∧ (q * 100).den = 1) ∧
      l4.getLast? = some (JVal.num (41 / 4))) := by
  refine ⟨⟨(List.range steps).map fun i =>
      if i = steps - 1 then JVal.num b
      else roundDown (max (decPlacesQ a) (decPlacesQ b))
        (jadd (JVal.num a)
          (jmul (initIncrement (JVal.num a) (JVal.num b)
              (max (decPlacesQ a) (decPlacesQ b)) steps)
            (JVal.num ((i : ℚ) + 1)))), rfl, by simp, ?_⟩,
    by with_unfolding_all decide, ?_⟩
  · intro i hi
    rw [List.getElem?_map, List.getElem?_range hi]
    rfl
  · refine ⟨[JVal.num (64 / 25), JVal.num (128 / 25), JVal.num (192 / 25),
      JVal.num (41 / 4)], by with_unfolding_all decide, ?_,
      by with_unfolding_all decide⟩
    intro v hv
    simp only [List.mem_cons, List.not_mem_nil, or_false] at hv
    rcases hv with rfl | rfl | rfl | rfl
    · exact ⟨64 / 25, rfl, by with_unfolding_all decide⟩
    · exact ⟨128 / 25, rfl, by with_unfolding_all decide⟩
    · exact ⟨192 / 25, rfl, by with_unfolding_all decide⟩
    · exact ⟨41 / 4, rfl, by with_unfolding_all decide⟩

theorem init_values_witness :
    0 < 5 ∧
    ∃ l, _init (some [DVal.num 0, DVal.num 10]) 5 = Except.ok l ∧
      l.length = 5 ∧
      ∀ i : Nat, i < 5 → l[i]? = some (if i = 5 - 1 then JVal.num 10
        else roundDown (max (decPlacesQ 0) (decPlacesQ 10))
          (jadd (JVal.num 0)
            (jmul (initIncrement (JVal.num 0) (JVal.num 10)
                (max (decPlacesQ 0) (decPlacesQ 10)) 5)
              (JVal.num ((i : ℚ) + 1))))) :=
  ⟨by decide, (init_values 0 10 5 (by decide)).1⟩

/-- C5, counterexample: the claim says an entry whose label is *not* a
non-empty string maps to the null placeholder.  The code's guard only
checks that the label is a string, so the empty-string label maps to the
empty token `""`, not to null: on
`[["", c0], ["2 to 4", c1]]` the result is `[""]`, not `[null]`. -/
theorem fromColorMap_empty_label_cex :
    _fromColorMap [(JVal.str "", (0 : Nat)), (JVal.str "2 to 4", 1)] = [some ""] ∧
    ([some ""] : List (Option String)) ≠ [none] := by
  exact ⟨by with_unfolding_all decide, by decide⟩

/-- C5, amended: `_fromColorMap` maps each entry whose label is a string
(the empty string included, which yields the empty token) to the token
after the last `" to "` separator, maps every entry whose label is not a
string to a null placeholder, unconditionally drops the last element, and
returns a sequence of length `colorCount - 1`. -/
theorem fromColorMap_spec {α : Type} (m : List (JVal × α)) :
    (_fromColorMap m).length = m.length - 1 ∧
    ∀ i, i < m.length - 1 → (_fromColorMap m)[i]? =
      m[i]?.map fun k =>
        match k.1 with
        | JVal.str s => some ((splitJS s " to ").getLastD "")
        | _ => none := by
  constructor
  · simp [_fromColorMap]
  · intro i hi
    unfold _fromColorMap
    rw [List.dropLast_eq_take, List.getElem?_take_of_lt (by simpa using hi),
      List.getElem?_map]
    rfl

theorem fromColorMap_spec_witness :
    (_fromColorMap [(JVal.str "0 to 2", (0 : Nat)),
      (JVal.str "2 to 4", 1)]).length = 1 ∧
    (_fromColorMap [(JVal.str "0 to 2", (0 : Nat)),
      (JVal.str "2 to 4", 1)])[0]? = some (some "2") := by
  obtain ⟨h1, h2⟩ :=
    fromColorMap_spec [(JVal.str "0 to 2", (0 : Nat)), (JVal.str "2 to 4", 1)]
  refine ⟨by simpa using h1, ?_⟩
  rw [h2 0 (by decide)]
  with_unfolding_all decide

/-- C7: every color-map the threshold mutator produces (domain present) has
length equal to the color count, every label of the form
`"<lower> to <upper>"`, the lower bound of the first pair rendering the
domain's first entry, and the upper bound of the last pair rendering the
domain's last entry — for every threshold array, edited index and raw
value. -/
theorem setThreshold_colorMap_invariant {α : Type} (dom : List DVal)
    (index : Nat) (value : JVal) (st : ThState α) (hc : st.colors ≠ []) :
    ∃ m, (_setColorThresholds (some dom) index value st).colorMap = some m ∧
      m.length = st.colors.length ∧
      (∀ e ∈ m, ∃ lo hi, e.1 = lo ++ " to " ++ hi) ∧
      (∃ hi c, m[0]? = some (optDValToString dom[0]? ++ " to " ++ hi, c)) ∧
      (∃ lo c, m[(m.length - 1)]? =
        some (lo ++ " to " ++ optDValToString dom[(dom.length - 1)]?, c)) := by
  have hpos : 0 < st.colors.length := List.length_pos.2 hc
  rw [setColorThresholds_some]
  refine ⟨_, rfl, buildColorMap_length _ _ _ _, ?_, ?_, ?_⟩
  · intro e he
    rw [List.mem_iff_getElem?] at he
    obtain ⟨i, hi⟩ := he
    rw [buildColorMap_getElem?] at hi
    obtain ⟨c, -, hc2⟩ := Option.map_eq_some'.1 hi
    rw [← hc2]
    exact ⟨_, _, rfl⟩
  · rw [buildColorMap_getElem?, List.getElem?_eq_getElem hpos]
    refine ⟨if 0 = st.colors.length - 1 then optDValToString dom[(dom.length - 1)]?
        else jvalToString (jsIndex (jsArraySet st.colorThresholds index value) 0),
      st.colors[0], ?_⟩
    simp [bucketLabel]
  · rw [buildColorMap_length]
    have hlt : st.colors.length - 1 < st.colors.length := by omega
    rw [buildColorMap_getElem?, List.getElem?_eq_getElem hlt]
    refine ⟨if st.colors.length - 1 = 0 then optDValToString dom[0]?
        else jvalToString (jsIndex (jsArraySet st.colorThresholds index value)
          (st.colors.length - 1 - 1)),
      st.colors[st.colors.length - 1], ?_⟩
    simp [bucketLabel]

theorem setThreshold_colorMap_invariant_witness :
    ∃ m, (_setColorThresholds (some [DVal.num 0, DVal.num 10]) 0 (JVal.num 3)
        (ThState.mk [JVal.num 5] [(7 : Nat), 8] none)).colorMap = some m ∧
      m.length = [(7 : Nat), 8].length ∧
      (∀ e ∈ m, ∃ lo hi, e.1 = lo ++ " to " ++ hi) ∧
      (∃ hi c, m[0]? =
        some (optDValToString ([DVal.num 0, DVal.num 10] : List DVal)[0]? ++
          " to " ++ hi, c)) ∧
      (∃ lo c, m[(m.length - 1)]? =
        some (lo ++ " to " ++
          optDValToString
            (([DVal.num 0, DVal.num 10] : List DVal))[(([DVal.num 0,
              DVal.num 10] : List DVal).length - 1)]?, c)) :=
  setThreshold_colorMap_invariant [DVal.num 0, DVal.num 10] 0 (JVal.num 3)
    (ThState.mk [JVal.num 5] [(7 : Nat), 8] none) (by decide)

/-- C9: with a present domain, `_setColorThresholds` stores the raw value
at the edited index exactly as given (not parsed, clamped or validated),
leaves every other existing position of the threshold sequence unchanged,
and the rebuilt color-map uses the raw value verbatim (its string
rendering) as the lower bound of the following bucket's label. -/
theorem setThreshold_frame_effect {α : Type} (dom : List DVal) (index : Nat)
    (value : JVal) (st : ThState α) :
    (_setColorThresholds (some dom) index value st).colorThresholds[index]? =
      some value ∧
    (∀ j, j ≠ index → j < st.colorThresholds.length →
      (_setColorThresholds (some dom) index value st).colorThresholds[j]? =
        st.colorThresholds[j]?) ∧
    ∀ (_ : index + 1 < st.colors.length), ∃ m hi c,
      (_setColorThresholds (some dom) index value st).colorMap = some m ∧
      m[(index + 1)]? = some (jvalToString value ++ " to " ++ hi, c) := by
  rw [setColorThresholds_some]
  refine ⟨jsArraySet_getElem?_self _ _ _,
    fun j hj hlt => jsArraySet_getElem?_of_ne _ _ hj hlt, fun h => ?_⟩
  refine ⟨buildColorMap (jsArraySet st.colorThresholds index value) st.colors
      (optDValToString dom[0]?) (optDValToString dom[(dom.length - 1)]?),
    (if index + 1 = st.colors.length - 1 then
        optDValToString dom[(dom.length - 1)]?
      else jvalToString (jsIndex (jsArraySet st.colorThresholds index value)
        (index + 1))),
    st.colors[index + 1], rfl, ?_⟩
  rw [buildColorMap_getElem?, List.getElem?_eq_getElem h]
  have hv : jsIndex (jsArraySet st.colorThresholds index value) index = value := by
    rw [jsIndex, jsArraySet_getElem?_self]
    rfl
  simp [bucketLabel, Nat.succ_ne_zero, hv]

theorem setThreshold_frame_effect_witness :
    (_setColorThresholds (some [DVal.num 0, DVal.num 10]) 0 (JVal.str "x")
      (ThState.mk [JVal.num 2, JVal.num 4] [(7 : Nat), 8, 9]
        none)).colorThresholds[1]? = some (JVal.num 4) ∧
    ∃ m hi c, (_setColorThresholds (some [DVal.num 0, DVal.num 10]) 0
        (JVal.str "x") (ThState.mk [JVal.num 2, JVal.num 4] [(7 : Nat), 8, 9]
          none)).colorMap = some m ∧
      m[1]? = some (jvalToString (JVal.str "x") ++ " to " ++ hi, c) := by
  obtain ⟨-, h2, h3⟩ := setThreshold_frame_effect [DVal.num 0, DVal.num 10] 0
    (JVal.str "x") (ThState.mk [JVal.num 2, JVal.num 4] [(7 : Nat), 8, 9] none)
  exact ⟨h2 1 (by decide) (by decide), h3 (by decide)⟩

/-- C10 (implicit): string domain bounds go through `parseInt`, so `_init`
on a string domain equals its numeric core applied to the parsed values;
every successful `parseInt` result is an integer (fractional parts are
discarded: `parseInt("10.25") = 10`), and hence for string-typed domains
the inferred precision comes from the truncated integers — concretely,
`["0","10.25"]` gets precision `0` (not `2`) and
`_init(["0","10.25"], 4) = [3, 6, 9, 10]`. -/
theorem init_string_domain_parseInt :
    (∀ a b : String, ∀ steps : Nat,
      _init (some [DVal.str a, DVal.str b]) steps =
        initFromNums (parseIntJS a) (parseIntJS b) steps) ∧
    (∀ s : String, ∀ n : ℚ, parseIntJS s = JVal.num n → n.den = 1) ∧
    parseIntJS "10.25" = JVal.num 10 ∧
    initDecimals (parseIntJS "0") (parseIntJS "10.25") = some 0 ∧
    _init (some [DVal.str "0", DVal.str "10.25"]) 4 =
      Except.ok [JVal.num 3, JVal.num 6, JVal.num 9, JVal.num 10] := by
  refine ⟨fun a b steps => rfl, parseIntJS_den, by decide,
    by with_unfolding_all decide, by with_unfolding_all decide⟩

theorem init_string_domain_parseInt_witness :
    parseIntJS "10.25" = JVal.num 10 ∧ (10 : ℚ).den = 1 := by
  obtain ⟨-, hden, hp, -, -⟩ := init_string_domain_parseInt
  exact ⟨hp, hden "10.25" 10 hp⟩

end ColorRangeSelector
